import Mathlib

/-!
Shallow embedding of the cowprotocol watch-tower core, for checking the
natural-language specification against the TypeScript source.

Conventions used throughout:
- JavaScript `Map` and `Set` objects are modelled as insertion-ordered
  association lists and lists; `Map.get`/`Map.set` become first-match
  lookup and replace-or-append.
- JavaScript strict equality `===` on objects is reference equality; we
  model an object reference as a value paired with an allocation id
  (`oid`), so that two separately decoded-but-equal structs compare
  unequal, exactly as in the source.
- Machine numbers in the source are non-negative integers well inside
  the float53 range (block numbers, counters), modelled as `Nat`;
  timestamps that may be negative are `Int`.
-/

namespace WatchTower

/-- First-match lookup in an association list: JS `Map.prototype.get`. -/
def alGet {κ α : Type} [DecidableEq κ] : List (κ × α) → κ → Option α
  | [], _ => none
  | (k, v) :: rest, key => if k = key then some v else alGet rest key

/-- Replace-or-append in an association list: JS `Map.prototype.set`
(in-place mutation of an existing entry keeps its position; a new key is
appended, matching Map insertion order). -/
def alSet {κ α : Type} [DecidableEq κ] : List (κ × α) → κ → α → List (κ × α)
  | [], key, val => [(key, val)]
  | (k, v) :: rest, key, val =>
    if k = key then (key, val) :: rest else (k, v) :: alSet rest key val

/-- Key removal: JS `Map.prototype.delete` / level-db `del`. -/
def alDel {κ α : Type} [DecidableEq κ] : List (κ × α) → κ → List (κ × α)
  | [], _ => []
  | (k, v) :: rest, key =>
    if k = key then alDel rest key else (k, v) :: alDel rest key

/-- `IConditionalOrder.ConditionalOrderParamsStruct`: the value triple
`{ handler, salt, staticInput }` (src/src/types/types.d.ts, spec section 3). -/
structure Params where
  handler : String
  salt : String
  staticInput : String
deriving DecidableEq, Repr

/-- A JS object reference holding a decoded params struct. `oid` is the
allocation identity: `===` between two object references is true exactly
when the references (hence also their contents) coincide. Each decode of
an event allocates a fresh object, so two decodes of equal triples carry
distinct `oid`s. -/
structure ParamsObj where
  oid : Nat
  val : Params
deriving DecidableEq, Repr

/-- Merkle proof `{ merkleRoot, path }` (src/src/types/types.d.ts). -/
structure Proof where
  merkleRoot : String
  path : List String
deriving DecidableEq, Repr

/-- `OrderStatus` enum from src/src/types/types.d.ts: SUBMITTED = 1, FILLED = 2. -/
inductive OrderStatus where
  | SUBMITTED
  | FILLED
deriving DecidableEq, Repr

/-- `ConditionalOrder` from src/src/types/types.d.ts as manipulated by
`add`/`flush` in src/src/addContract.ts. `params` is an object reference
(see `ParamsObj`); `orders` is the discrete-order map. The optional
`pollResult` bookkeeping field is not touched by these operations. -/
structure ConditionalOrder where
  tx : String
  params : ParamsObj
  proof : Option Proof
  orders : List (String × OrderStatus)
  composableCow : String
deriving DecidableEq, Repr

/-- `registry.ownerOrders : Map<Owner, Set<ConditionalOrder>>`. -/
abbrev OwnerOrders := List (String × List ConditionalOrder)

/-- `add` from src/src/addContract.ts lines 164-209. For an existing
owner it scans the set with `conditionalOrder.params === params` (strict
object equality, modelled as equality of `ParamsObj` including `oid`)
and inserts only when no entry matches; for a new owner it creates a
fresh singleton set. -/
def add (tx : String) (owner : String) (params : ParamsObj)
    (proof : Option Proof) (composableCow : String)
    (registry : OwnerOrders) : OwnerOrders :=
  match alGet registry owner with
  | some conditionalOrders =>
    if conditionalOrders.any (fun conditionalOrder =>
        decide (conditionalOrder.params = params)) then
      registry
    else
      alSet registry owner
        (conditionalOrders ++
          [{ tx, params, proof, orders := [], composableCow }])
  | none =>
    alSet registry owner [{ tx, params, proof, orders := [], composableCow }]

/-- The deletion condition of `flush` (src/src/addContract.ts lines
225-233): `conditionalOrder.proof !== null && conditionalOrder.proof.merkleRoot !== root`
(`merkleRoot` and `root` are hex strings, so `!==` is value inequality). -/
def flushDeletes (root : String) (conditionalOrder : ConditionalOrder) : Bool :=
  match conditionalOrder.proof with
  | some p => decide (p.merkleRoot ≠ root)
  | none => false

/-- `flush` from src/src/addContract.ts lines 217-236: for the given
owner, delete every conditional order whose proof is non-null with a
merkle root different from `root`. Deleting the current element during
Set iteration leaves exactly the non-matching elements, i.e. a filter. -/
def flush (owner : String) (root : String) (registry : OwnerOrders) : OwnerOrders :=
  match alGet registry owner with
  | some conditionalOrders =>
    alSet registry owner
      (conditionalOrders.filter (fun conditionalOrder =>
        !(flushDeletes root conditionalOrder)))
  | none => registry

/-- The set of conditional orders registered for an owner (empty if the
owner is absent). -/
def ordersOf (registry : OwnerOrders) (owner : String) : List ConditionalOrder :=
  (alGet registry owner).getD []

/-- A fully-resolved block header as returned by `provider.getBlock`. -/
structure Block where
  number : Nat
  hash : String
  timestamp : Int
deriving DecidableEq, Repr

/-- Modelled from the spec: `blockToRegistryBlock` lives in `src/types`,
which is not part of the provided sources. Spec section 3 defines the
registry block cursor as the persisted structure
`{ number, hash, timestamp }` of the last block fully processed. -/
structure RegistryBlock where
  number : Nat
  hash : String
  timestamp : Int
deriving DecidableEq, Repr

/-- Modelled from the spec: projection of a resolved block onto the
persisted cursor structure (spec section 3, registry block cursor). -/
def blockToRegistryBlock (block : Block) : RegistryBlock :=
  { number := block.number, hash := block.hash, timestamp := block.timestamp }

/-- A decoded `ConditionalOrderCreated` event, as consumed by the
warm-up bucketing and by `processBlock` (src/unnamed/part_000). Only
the fields those functions inspect are kept. -/
structure Event where
  blockNumber : Nat
  transactionHash : String
deriving DecidableEq, Repr

/-- Observable outcome of `processBlock` (src/unnamed/part_000 lines
438-502). `ranPoller` records whether `checkForAndPlaceOrder` was
invoked; `eventsProcessed` counts the events whose transaction receipt
existed (the `eventsProcessedTotal` increments); `hasErrors` is the
accumulated error flag that decides the final `throw`. -/
structure ProcessBlockResult where
  ranPoller : Bool
  eventsProcessed : Nat
  hasErrors : Bool
deriving DecidableEq, Repr

/-- `processBlock` from src/unnamed/part_000 lines 438-502. External
effects are supplied as oracles: `receiptExists` abstracts
`provider.getTransactionReceipt`, `addContractOk` the success of the
`addContract` action per event, and `checkForAndPlaceOrderOk` the
success of the poll walk. The source accumulates `hasErrors` over the
event loop, runs `checkForAndPlaceOrder` exactly when
`block.number % processEveryNumBlocks === 0`, and throws a single error
at the end when `hasErrors` is set. -/
def processBlock (processEveryNumBlocks : Nat) (block : Block)
    (events : List Event) (receiptExists : Event → Bool)
    (addContractOk : Event → Bool) (checkForAndPlaceOrderOk : Bool) :
    ProcessBlockResult :=
  let ingested := events.filter receiptExists
  let hasErrorsAfterEvents := ingested.any (fun e => !(addContractOk e))
  let shouldProcessBlock := block.number % processEveryNumBlocks == 0
  let hasErrors :=
    if shouldProcessBlock then
      hasErrorsAfterEvents || !checkForAndPlaceOrderOk
    else
      hasErrorsAfterEvents
  { ranPoller := shouldProcessBlock
    eventsProcessed := ingested.length
    hasErrors := hasErrors }

/-- The registry state touched by `persistLastProcessedBlock`:
the in-memory cursor plus the trace of cursors passed to
`registry.write()` (one entry per successful persisted write). -/
structure PersistState where
  lastProcessedBlock : Option RegistryBlock
  writes : List RegistryBlock
deriving DecidableEq, Repr

/-- `persistLastProcessedBlock` from src/unnamed/part_000 lines 504-523:
set `registry.lastProcessedBlock = blockToRegistryBlock(block)` and call
`registry.write()`. -/
def persistLastProcessedBlock (st : PersistState) (block : Block) : PersistState :=
  let cursor := blockToRegistryBlock block
  { lastProcessedBlock := some cursor, writes := st.writes ++ [cursor] }

/-- How the promise returned by `processBlockAndPersist` settles:
`resolved` with the persisted cursor, or `rejected` with an error. -/
inductive BlockOutcome where
  | resolved : RegistryBlock → BlockOutcome
  | rejected : BlockOutcome
deriving DecidableEq, Repr

/-- `processBlockAndPersist` from src/unnamed/part_000 lines 525-548:
`try { await processBlock(...) } catch (err) { log.error(...) } finally { return persistLastProcessedBlock(...) }`.
The catch discards the error from `processBlock` (its `hasErrors` throw
influences nothing beyond the log), and the `return` inside `finally`
makes the function resolve with the persisted cursor unconditionally. -/
def processBlockAndPersist (processEveryNumBlocks : Nat) (st : PersistState)
    (block : Block) (events : List Event) (receiptExists : Event → Bool)
    (addContractOk : Event → Bool) (checkForAndPlaceOrderOk : Bool) :
    PersistState × BlockOutcome :=
  let _dropped := (processBlock processEveryNumBlocks block events
    receiptExists addContractOk checkForAndPlaceOrderOk).hasErrors
  let persisted := persistLastProcessedBlock st block
  (persisted, BlockOutcome.resolved (blockToRegistryBlock block))

/-- The warm-up bucketing reduce from src/unnamed/part_000 lines 240-251:
`events.reduce(...)` grouping the page of events into a record keyed by
block number, appending within a bucket. -/
def bucketEvents (events : List Event) : List (Nat × List Event) :=
  events.foldl
    (fun acc event =>
      match alGet acc event.blockNumber with
      | some es => alSet acc event.blockNumber (es ++ [event])
      | none => acc ++ [(event.blockNumber, [event])])
    []

/-- Lexicographic comparison of character lists by code unit. -/
def lexLtChars : List Char → List Char → Bool
  | [], [] => false
  | [], _ :: _ => true
  | _ :: _, [] => false
  | c :: cs, d :: ds =>
    if c.toNat < d.toNat then true
    else if d.toNat < c.toNat then false
    else lexLtChars cs ds

/-- The default `Array.prototype.sort` string comparator: compare the
two strings by UTF-16 code units (for the decimal numerals appearing as
keys this coincides with code-point order). -/
def jsStringLt (a b : String) : Bool :=
  lexLtChars a.data b.data

/-- One step of the comparator used by `Object.keys(eventsByBlock).sort()`
(src/unnamed/part_000 line 254): the default `Array.prototype.sort`
compares the keys as UTF-16 strings. Insertion respects that string
order; since the bucket keys are pairwise distinct, any sort by this
comparator yields the same list. -/
def insertByDecimalString (n : Nat) : List Nat → List Nat
  | [] => [n]
  | m :: ms =>
    if !(jsStringLt (toString m) (toString n)) then n :: m :: ms
    else m :: insertByDecimalString n ms

/-- `Object.keys(eventsByBlock).sort()`: the bucket keys ordered by the
default (lexicographic string) comparator. -/
def jsSortKeys (keys : List Nat) : List Nat :=
  keys.foldr insertByDecimalString []

/-- The order in which warm-up hands buckets to
`processBlockAndPersist` (src/unnamed/part_000 lines 253-264): iterate
`Object.keys(eventsByBlock).sort()` and process each key as a block. -/
def warmUpBlockOrder (events : List Event) : List Nat :=
  jsSortKeys ((bucketEvents events).map Prod.fst)

/-- The cursors persisted by the warm-up bucket loop: each iteration
calls `processBlockAndPersist` for its block, which persists that block
as `lastProcessedBlock` (src/unnamed/part_000 lines 256-264 and 504-523). -/
def warmUpCursorNumbers (events : List Event) : List Nat :=
  warmUpBlockOrder events

/-- The state read and written by the `provider.on("block", ...)`
handler in `runBlockWatcher` (src/unnamed/part_000 lines 314-362):
the last received block header, the two reorg metrics, and the
registry persistence state. -/
structure WatcherState where
  lastBlockReceived : Block
  reorgsTotal : Nat
  reorgDepthGauge : Nat
  persist : PersistState
deriving DecidableEq, Repr

/-- The body of the `provider.on("block", ...)` handler in
`runBlockWatcher` (src/unnamed/part_000 lines 321-362): detect a reorg
when `blockNumber <= lastBlockReceived.number && block.hash !== lastBlockReceived.hash`,
incrementing `reorgsTotal` and setting the `reorgDepth` gauge to
`lastBlockReceived.number - blockNumber + 1`; then update
`lastBlockReceived`, fetch the events of the single block and run
`processBlockAndPersist` on it (unconditionally, reorg or not). -/
def runBlockWatcherOnBlock (processEveryNumBlocks : Nat) (st : WatcherState)
    (block : Block) (events : List Event) (receiptExists : Event → Bool)
    (addContractOk : Event → Bool) (checkForAndPlaceOrderOk : Bool) :
    WatcherState :=
  let isReorg :=
    block.number ≤ st.lastBlockReceived.number &&
      block.hash != st.lastBlockReceived.hash
  let reorgsTotal := if isReorg then st.reorgsTotal + 1 else st.reorgsTotal
  let reorgDepthGauge :=
    if isReorg then st.lastBlockReceived.number - block.number + 1
    else st.reorgDepthGauge
  let persisted := (processBlockAndPersist processEveryNumBlocks st.persist
    block events receiptExists addContractOk checkForAndPlaceOrderOk).1
  { lastBlockReceived := block
    reorgsTotal := reorgsTotal
    reorgDepthGauge := reorgDepthGauge
    persist := persisted }

/-- Chain sync states (src/unnamed/part_000 lines 37-44). -/
inductive ChainSync where
  | SYNCING
  | IN_SYNC
  | UNKNOWN
deriving DecidableEq, Repr

/-- The per-chain data the static health aggregator reads (one entry of
`ChainContext.chains`, src/unnamed/part_000). -/
structure ChainEntry where
  chainId : Nat
  sync : ChainSync
deriving DecidableEq, Repr

/-- `ChainContext.isHealthy` (src/unnamed/part_000 lines 404-407):
a chain is healthy exactly when its sync state is `IN_SYNC`. -/
def chainIsHealthy (chain : ChainEntry) : Bool :=
  chain.sync == ChainSync.IN_SYNC

/-- The `overallHealth` component of the static `ChainContext.health`
getter (src/unnamed/part_000 lines 409-422): a reduce over the
registered chains starting from `overallHealth: true` and conjoining
`chain.isHealthy()`. -/
def overallHealth (chains : List ChainEntry) : Bool :=
  chains.foldl (fun acc chain => acc && chainIsHealthy chain) true

/-- `FILTER_FREQUENCY_SECS` from src/src/domain/chainContext.ts line 342. -/
def FILTER_FREQUENCY_SECS : Nat := 60 * 60

/-- `blocksPerFilterFrequency` from src/src/domain/chainContext.ts lines
777-779: `FILTER_FREQUENCY_SECS / (gnosis ? 5 : 12)`; the divisions here
are exact, so float division coincides with `Nat` division. -/
def blocksPerFilterFrequency (isGnosisChain : Bool) : Nat :=
  FILTER_FREQUENCY_SECS / (if isGnosisChain then 5 else 12)

/-- The filter-policy reload guard from src/src/domain/chainContext.ts
lines 780-783: `block.number % (FILTER_FREQUENCY_SECS / blocksPerFilterFrequency) == 0`. -/
def filterPolicyReloadDue (blockNumber : Nat) (isGnosisChain : Bool) : Bool :=
  blockNumber % (FILTER_FREQUENCY_SECS / blocksPerFilterFrequency isGnosisChain) == 0

namespace Model

/-!
Persistence model for `Registry.load` / `Registry.write`
(src/src/types/types.d.ts lines 131-334). JSON text is modelled by its
parse tree (`JValue`) since `JSON.parse` inverts `JSON.stringify` on its
output; likewise decimal and ISO-8601 renderings of numbers and dates
are injective and are modelled by the rendered value (`DBVal`).
Conditional orders are compared by value here, matching the value
equality the persistence layer works with: `JSON.stringify` writes the
contents of the `params` object, never its identity.
-/

/-- A JSON document tree. -/
inductive JValue where
  | jstr : String → JValue
  | jnum : Int → JValue
  | jnull : JValue
  | jarr : List JValue → JValue
  | jobj : List (String × JValue) → JValue
deriving Repr

/-- A value held by the level-db store. All stored values are strings;
each constructor identifies a string with its (injectively rendered)
payload: plain text, a decimal integer (`toString` / `Number`), an
ISO-8601 date (`toISOString` / `new Date`, epoch milliseconds), or a
JSON document (`JSON.stringify` / `JSON.parse`). -/
inductive DBVal where
  | txt : String → DBVal
  | int : Int → DBVal
  | date : Int → DBVal
  | json : JValue → DBVal
deriving Repr

/-- The four storage key constants (src/src/types/types.d.ts lines 46-51). -/
inductive StorageKeyName where
  | LAST_NOTIFIED_ERROR
  | LAST_PROCESSED_BLOCK
  | CONDITIONAL_ORDER_REGISTRY
  | CONDITIONAL_ORDER_REGISTRY_VERSION
deriving DecidableEq, Repr

/-- `getNetworkStorageKey` (src/src/types/types.d.ts lines 53-55)
produces the string `key + "_" + network`. The four key constants are
pairwise non-prefixes of each other, so the concatenation is injective
in both components; keys are therefore modelled as pairs. -/
structure StorageKey where
  name : StorageKeyName
  network : String
deriving DecidableEq, Repr

/-- `getNetworkStorageKey` as a key constructor. -/
def getNetworkStorageKey (name : StorageKeyName) (network : String) : StorageKey :=
  { name := name, network := network }

/-- The key/value store behind `DBService` (level-db): keys are unique;
`put` overwrites, `del` removes, `get` of a missing key rejects. -/
abbrev Store := List (StorageKey × DBVal)

/-- `CONDITIONAL_ORDER_REGISTRY_VERSION` (src/src/types/types.d.ts line 51). -/
def CONDITIONAL_ORDER_REGISTRY_VERSION : Nat := 1

/-- `ConditionalOrder` as the persistence layer sees it: the value
contents written by `JSON.stringify` (object identity of `params` does
not survive serialisation and is irrelevant here). The optional
`pollResult` field is external SDK data; orders reached by
`Registry.write` in the modelled flows carry none. -/
structure ConditionalOrderV where
  tx : String
  params : Params
  proof : Option Proof
  orders : List (String × OrderStatus)
  composableCow : String
deriving DecidableEq, Repr

/-- `ownerOrders : Map<Owner, Set<ConditionalOrder>>` at value level. -/
abbrev OwnerOrdersV := List (String × List ConditionalOrderV)

/-- `replacer` (src/src/types/types.d.ts lines 311-325) on a `Map`:
the tagged object `{ dataType: "Map", value: [...entries] }`. -/
def tagMap (entries : List (JValue × JValue)) : JValue :=
  JValue.jobj
    [("dataType", JValue.jstr "Map"),
     ("value", JValue.jarr (entries.map (fun e => JValue.jarr [e.1, e.2])))]

/-- `replacer` on a `Set`: `{ dataType: "Set", value: [...values] }`. -/
def tagSet (values : List JValue) : JValue :=
  JValue.jobj
    [("dataType", JValue.jstr "Set"),
     ("value", JValue.jarr values)]

/-- JSON image of an `OrderStatus` (numeric enum: SUBMITTED = 1, FILLED = 2). -/
def statusToJS : OrderStatus → JValue
  | OrderStatus.SUBMITTED => JValue.jnum 1
  | OrderStatus.FILLED => JValue.jnum 2

/-- JSON image of the discrete-orders `Map<OrderUid, OrderStatus>`. -/
def ordersMapToJS (orders : List (String × OrderStatus)) : JValue :=
  tagMap (orders.map (fun e => (JValue.jstr e.1, statusToJS e.2)))

/-- JSON image of a params triple (a plain object). -/
def paramsToJS (p : Params) : JValue :=
  JValue.jobj
    [("handler", JValue.jstr p.handler),
     ("salt", JValue.jstr p.salt),
     ("staticInput", JValue.jstr p.staticInput)]

/-- JSON image of a proof (`null` when absent). -/
def proofToJS : Option Proof → JValue
  | none => JValue.jnull
  | some p =>
    JValue.jobj
      [("merkleRoot", JValue.jstr p.merkleRoot),
       ("path", JValue.jarr (p.path.map JValue.jstr))]

/-- JSON image of a conditional order (fields in declaration order). -/
def orderToJS (o : ConditionalOrderV) : JValue :=
  JValue.jobj
    [("tx", JValue.jstr o.tx),
     ("params", paramsToJS o.params),
     ("proof", proofToJS o.proof),
     ("orders", ordersMapToJS o.orders),
     ("composableCow", JValue.jstr o.composableCow)]

/-- `stringifyOrders` (src/src/types/types.d.ts lines 270-272):
`JSON.stringify(this.ownerOrders, replacer)` as a JSON tree — the outer
`Map` of owners to `Set`s of orders, with `replacer` tagging each `Map`
and `Set`. -/
def ownerOrdersToJS (m : OwnerOrdersV) : JValue :=
  tagMap (m.map (fun e => (JValue.jstr e.1, tagSet (e.2.map orderToJS))))

/-- Sequential `Option`-valued traversal of a list (fails as soon as one
element fails to parse). -/
def parseList {α β : Type} (g : α → Option β) : List α → Option (List β)
  | [] => some []
  | x :: xs =>
    match g x, parseList g xs with
    | some y, some ys => some (y :: ys)
    | _, _ => none

/-- Read a JSON string leaf. -/
def parseString : JValue → Option String
  | JValue.jstr s => some s
  | _ => none

/-- Read one `[key, value]` entry array of a revived `Map`. -/
def parsePairArr : JValue → Option (JValue × JValue)
  | JValue.jarr [k, v] => some (k, v)
  | _ => none

/-- `_reviver` (src/src/types/types.d.ts lines 300-309) on a tagged
`Map` object: recover the entry list that `new Map(value.value)` is
built from. -/
def parseMapEntries : JValue → Option (List (JValue × JValue))
  | JValue.jobj [("dataType", JValue.jstr "Map"), ("value", JValue.jarr es)] =>
    parseList parsePairArr es
  | _ => none

/-- `_reviver` on a tagged `Set` object: recover the element list. -/
def parseSetElems : JValue → Option (List JValue)
  | JValue.jobj [("dataType", JValue.jstr "Set"), ("value", JValue.jarr xs)] =>
    some xs
  | _ => none

/-- Read an `OrderStatus` enum value. -/
def parseStatus : JValue → Option OrderStatus
  | JValue.jnum 1 => some OrderStatus.SUBMITTED
  | JValue.jnum 2 => some OrderStatus.FILLED
  | _ => none

/-- Read back a discrete-orders map. -/
def parseOrdersMap (v : JValue) : Option (List (String × OrderStatus)) :=
  match parseMapEntries v with
  | some entries =>
    parseList
      (fun e =>
        match parseString e.1, parseStatus e.2 with
        | some uid, some st => some (uid, st)
        | _, _ => none)
      entries
  | none => none

/-- Read back a params triple. -/
def parseParams : JValue → Option Params
  | JValue.jobj
      [("handler", JValue.jstr h),
       ("salt", JValue.jstr s),
       ("staticInput", JValue.jstr i)] =>
    some { handler := h, salt := s, staticInput := i }
  | _ => none

/-- Read back an optional proof. -/
def parseProofOpt : JValue → Option (Option Proof)
  | JValue.jnull => some none
  | JValue.jobj [("merkleRoot", JValue.jstr r), ("path", JValue.jarr ps)] =>
    match parseList parseString ps with
    | some path => some (some { merkleRoot := r, path := path })
    | none => none
  | _ => none

/-- Read back a conditional order. -/
def parseOrder : JValue → Option ConditionalOrderV
  | JValue.jobj
      [("tx", JValue.jstr tx),
       ("params", pv),
       ("proof", prv),
       ("orders", ov),
       ("composableCow", JValue.jstr cc)] =>
    match parseParams pv, parseProofOpt prv, parseOrdersMap ov with
    | some p, some pr, some os =>
      some { tx := tx, params := p, proof := pr, orders := os, composableCow := cc }
    | _, _, _ => none
  | _ => none

/-- The typed effect of `JSON.parse(str, _reviver)` on a serialised
`ownerOrders` document: the outer tagged `Map` of owners, each value a
tagged `Set` of order objects. -/
def parseOwnerOrders (v : JValue) : Option OwnerOrdersV :=
  match parseMapEntries v with
  | some entries =>
    parseList
      (fun e =>
        match parseString e.1, parseSetElems e.2 with
        | some owner, some elems =>
          match parseList parseOrder elems with
          | some orders => some (owner, orders)
          | none => none
        | _, _ => none)
      entries
  | none => none

/-- `parseConditionalOrders` (src/src/types/types.d.ts lines 326-334):
a falsy serialised string yields `new Map()`; otherwise
`JSON.parse(str, _reviver)`. The `_version` argument is accepted and
ignored, exactly as in the source. -/
def parseConditionalOrders (serializedConditionalOrders : Option JValue)
    (_version : Option Int) : Option OwnerOrdersV :=
  match serializedConditionalOrders with
  | none => some []
  | some j => parseOwnerOrders j

/-- `Registry` (src/src/types/types.d.ts lines 131-157) without the
storage handle. `version` is a class-field initialiser, so every
instance constructed by the source carries
`CONDITIONAL_ORDER_REGISTRY_VERSION`. -/
structure Registry where
  version : Nat
  ownerOrders : OwnerOrdersV
  network : String
  lastNotifiedError : Option Int
  lastProcessedBlock : Option Int
deriving DecidableEq, Repr

/-- `Registry.write` (src/src/types/types.d.ts lines 223-268): one
atomic batch that puts the version (as decimal text) and the serialised
`ownerOrders`, then puts or deletes `LAST_NOTIFIED_ERROR` (ISO date)
and `LAST_PROCESSED_BLOCK` (decimal text) according to nullness. -/
def registryWrite (r : Registry) (s : Store) : Store :=
  let s1 := alSet s
    (getNetworkStorageKey StorageKeyName.CONDITIONAL_ORDER_REGISTRY_VERSION r.network)
    (DBVal.int (Int.ofNat r.version))
  let s2 := alSet s1
    (getNetworkStorageKey StorageKeyName.CONDITIONAL_ORDER_REGISTRY r.network)
    (DBVal.json (ownerOrdersToJS r.ownerOrders))
  let s3 :=
    match r.lastNotifiedError with
    | some t => alSet s2
        (getNetworkStorageKey StorageKeyName.LAST_NOTIFIED_ERROR r.network)
        (DBVal.date t)
    | none => alDel s2
        (getNetworkStorageKey StorageKeyName.LAST_NOTIFIED_ERROR r.network)
  match r.lastProcessedBlock with
  | some n => alSet s3
      (getNetworkStorageKey StorageKeyName.LAST_PROCESSED_BLOCK r.network)
      (DBVal.int n)
  | none => alDel s3
      (getNetworkStorageKey StorageKeyName.LAST_PROCESSED_BLOCK r.network)

/-- The `LAST_NOTIFIED_ERROR` read of `Registry.load`
(src/src/types/types.d.ts lines 175-181): a stored ISO date maps to its
`Date`, a rejected `get` (missing key) to `null` via the catch. Values
of a kind the source never stores under this key are outside the model
and also map to the failure branch. -/
def loadLastNotifiedError (s : Store) (network : String) : Option Int :=
  match alGet s (getNetworkStorageKey StorageKeyName.LAST_NOTIFIED_ERROR network) with
  | some (DBVal.date t) => some t
  | _ => none

/-- The `LAST_PROCESSED_BLOCK` read of `Registry.load`
(src/src/types/types.d.ts lines 183-189): a stored decimal maps to its
number, a stored falsy (empty) string to `genesisBlockNumber`, and a
rejected `get` to `null` via the catch. -/
def loadLastProcessedBlock (s : Store) (network : String)
    (genesisBlockNumber : Int) : Option Int :=
  match alGet s (getNetworkStorageKey StorageKeyName.LAST_PROCESSED_BLOCK network) with
  | some (DBVal.int n) => some n
  | some (DBVal.txt "") => some genesisBlockNumber
  | _ => none

/-- The version read of `Registry.load` (src/src/types/types.d.ts lines
192-198): `Number` of the stored text, `undefined` via the catch when
the key is missing. -/
def loadVersion (s : Store) (network : String) : Option Int :=
  match alGet s (getNetworkStorageKey StorageKeyName.CONDITIONAL_ORDER_REGISTRY_VERSION network) with
  | some (DBVal.int n) => some n
  | _ => none

/-- The `!!str ? str : undefined` handling of the serialised registry
text inside `Registry.load`: a JSON document passes through, an empty
(falsy) string becomes `undefined`, and any other text makes the later
`JSON.parse` throw, rejecting the load. -/
def loadSerializedOrders : DBVal → Option (Option JValue)
  | DBVal.json j => some (some j)
  | DBVal.txt s => if s.isEmpty then some none else none
  | _ => none

/-- `Registry.load` (src/src/types/types.d.ts lines 165-214). The first
`get` (the serialised registry) carries no catch, so a missing key or
unparsable JSON rejects the whole load (`none`). The three other reads
are guarded by catches (see the component definitions above). The
persisted version is read and handed to `parseConditionalOrders`, which
ignores it; the returned registry takes its `version` from the
class-field initialiser. -/
def registryLoad (s : Store) (network : String) (genesisBlockNumber : Int) :
    Option Registry :=
  match alGet s (getNetworkStorageKey StorageKeyName.CONDITIONAL_ORDER_REGISTRY network) with
  | none => none
  | some strVal =>
    match loadSerializedOrders strVal with
    | none => none
    | some serialized =>
      match parseConditionalOrders serialized (loadVersion s network) with
      | none => none
      | some ownerOrders =>
        some
          { version := CONDITIONAL_ORDER_REGISTRY_VERSION
            ownerOrders := ownerOrders
            network := network
            lastNotifiedError := loadLastNotifiedError s network
            lastProcessedBlock := loadLastProcessedBlock s network genesisBlockNumber }

/-- Concrete order for the persistence examples. -/
def exOrderV : ConditionalOrderV :=
  { tx := "0xtx"
    params := { handler := "0xhandler", salt := "0xsalt", staticInput := "0x" }
    proof := some { merkleRoot := "0xr2", path := ["0xpath"] }
    orders := [("0xuid", OrderStatus.SUBMITTED)]
    composableCow := "0xcow" }

/-- Concrete owner map for the persistence examples. -/
def exOwnerOrdersV : OwnerOrdersV := [("0xowner", [exOrderV])]

/-- Concrete registry for the round-trip witness. -/
def exRegV : Registry :=
  { version := CONDITIONAL_ORDER_REGISTRY_VERSION
    ownerOrders := exOwnerOrdersV
    network := "100"
    lastNotifiedError := some 1700000000000
    lastProcessedBlock := some 12345 }

/-- A storage state holding serialised owner orders but no version key:
the input refuting the missing-version-means-empty reading of `load`. -/
def exNoVersionStore : Store :=
  [(getNetworkStorageKey StorageKeyName.CONDITIONAL_ORDER_REGISTRY "100",
    DBVal.json (ownerOrdersToJS exOwnerOrdersV))]

end Model

/-- Oracle returning success for every event. -/
def oracleTrue : Event → Bool := fun _ => true

/-- Oracle returning failure for every event. -/
def oracleFalse : Event → Bool := fun _ => false

/-- A value triple shared (by value) between two decoded event objects. -/
def exParams : Params := { handler := "0xhandler", salt := "0xsalt", staticInput := "0x" }

/-- First decode of the params struct (allocation id 1). -/
def exParamsObj1 : ParamsObj := { oid := 1, val := exParams }

/-- Second decode of the same value triple (fresh allocation id 2). -/
def exParamsObj2 : ParamsObj := { oid := 2, val := exParams }

/-- Registry after adding the first decoded order. -/
def exReg1 : OwnerOrders := add "0xtx1" "0xowner" exParamsObj1 none "0xcow" []

/-- Registry after adding a second order whose params triple equals the
first by value but is a fresh decode. -/
def exReg2 : OwnerOrders := add "0xtx2" "0xowner" exParamsObj2 none "0xcow" exReg1

/-- A warm-up page with events at blocks 9 and 10. -/
def exWarmupEvents : List Event := [⟨9, "0xa"⟩, ⟨10, "0xb"⟩]

/-- Block 5 with its header data. -/
def exBlock5 : Block := ⟨5, "0xb5", 500⟩

/-- Block 6 with its header data. -/
def exBlock6 : Block := ⟨6, "0xb6", 600⟩

/-- An event whose `addContract` action fails. -/
def exErrEvent : Event := ⟨5, "0xdead"⟩

/-- Fresh persistence state (no cursor, no writes yet). -/
def exPersistEmpty : PersistState := ⟨none, []⟩

/-- Conditional orders for the flush example: a single (null-proof)
order, a merkle order under root r1 and a merkle order under root r2. -/
def exCoSingle : ConditionalOrder :=
  { tx := "0xt0", params := ⟨3, exParams⟩, proof := none, orders := [], composableCow := "0xcow" }

/-- Merkle order whose root is r1. -/
def exCoR1 : ConditionalOrder :=
  { tx := "0xt1", params := ⟨4, exParams⟩, proof := some ⟨"0xr1", []⟩, orders := [],
    composableCow := "0xcow" }

/-- Merkle order whose root is r2. -/
def exCoR2 : ConditionalOrder :=
  { tx := "0xt2", params := ⟨5, exParams⟩, proof := some ⟨"0xr2", ["0xp"]⟩, orders := [],
    composableCow := "0xcow" }

/-- An order belonging to a different owner, untouched by the flush. -/
def exCoOther : ConditionalOrder :=
  { tx := "0xt3", params := ⟨6, exParams⟩, proof := some ⟨"0xr1", []⟩, orders := [],
    composableCow := "0xcow" }

/-- Registry for the flush witness: owner 0xa holds the three orders
above, owner 0xb holds one merkle order under root r1. -/
def exFlushReg : OwnerOrders :=
  [("0xa", [exCoSingle, exCoR1, exCoR2]), ("0xb", [exCoOther])]

/-- Watcher state before a depth-1 reorg: block 200 with hash h1 was
the last block received. -/
def exWatcherState : WatcherState :=
  { lastBlockReceived := ⟨200, "0xh1", 1000⟩
    reorgsTotal := 7
    reorgDepthGauge := 0
    persist := exPersistEmpty }

/-- The replacement block 200 with a different hash h2. -/
def exReorgBlock : Block := ⟨200, "0xh2", 1012⟩

/-- A chain entry that is in sync. -/
def exChainIn : ChainEntry := ⟨1, ChainSync.IN_SYNC⟩

end WatchTower

namespace WatchTower

/-- Lookup after replace-or-append. -/
theorem alGet_alSet {κ α : Type} [DecidableEq κ] (l : List (κ × α)) (k k' : κ) (v : α) :
    alGet (alSet l k v) k' = if k = k' then some v else alGet l k' := by
  induction l with
  | nil =>
    by_cases h : k = k' <;> simp [alSet, alGet, h]
  | cons hd tl ih =>
    obtain ⟨hk, hv⟩ := hd
    by_cases h1 : hk = k
    · subst h1
      by_cases h2 : hk = k' <;> simp [alSet, alGet, h2]
    · by_cases h2 : hk = k'
      · subst h2
        have h3 : ¬ k = hk := fun e => h1 e.symm
        simp [alSet, alGet, h1, h3]
      · simp [alSet, alGet, h1, h2, ih]

/-- Lookup after key removal. -/
theorem alGet_alDel {κ α : Type} [DecidableEq κ] (l : List (κ × α)) (k k' : κ) :
    alGet (alDel l k) k' = if k = k' then none else alGet l k' := by
  induction l with
  | nil =>
    by_cases h : k = k' <;> simp [alDel, alGet, h]
  | cons hd tl ih =>
    obtain ⟨hk, hv⟩ := hd
    by_cases h1 : hk = k
    · subst h1
      by_cases h2 : hk = k'
      · subst h2
        simp [alDel, alGet, ih]
      · simp [alDel, alGet, h2, ih]
    · by_cases h2 : hk = k'
      · subst h2
        have h3 : ¬ k = hk := fun e => h1 e.symm
        simp [alDel, alGet, h1, h3]
      · simp [alDel, alGet, h1, h2, ih]

/-- C1: the spec says `add` is a no-op when a conditional order with the
same `(handler, salt, staticInput)` triple, compared by value, is
already registered for that owner, and that params triples are unique
per owner. The source compares `conditionalOrder.params === params`,
which is reference equality on the decoded struct object and never
matches a freshly decoded event, so the second add of an identical
triple inserts a duplicate and breaks the claimed uniqueness invariant. -/
theorem add_params_reference_equality_bug :
    exReg2 ≠ exReg1
    ∧ (ordersOf exReg2 "0xowner").length = 2
    ∧ ∃ a ∈ ordersOf exReg2 "0xowner", ∃ b ∈ ordersOf exReg2 "0xowner",
        a ≠ b ∧ a.params.val = b.params.val := by
  refine ⟨by decide, by decide, ?_⟩
  refine ⟨{ tx := "0xtx1", params := exParamsObj1, proof := none, orders := [],
            composableCow := "0xcow" }, by decide,
          { tx := "0xtx2", params := exParamsObj2, proof := none, orders := [],
            composableCow := "0xcow" }, by decide, by decide, by decide⟩

/-- C2: the warm-up loop is supposed to hand buckets to the block
processor in ascending block-number order, keeping the persisted cursor
non-decreasing. `Object.keys(eventsByBlock).sort()` sorts the decimal
key strings lexicographically, so with events at blocks 9 and 10 in one
page, block 10 is processed and persisted before block 9 and the cursor
trace 10, 9 decreases. -/
theorem warmup_bucket_order_at_9_10 :
    warmUpBlockOrder exWarmupEvents = [10, 9]
    ∧ warmUpCursorNumbers exWarmupEvents = [10, 9]
    ∧ ¬ List.Pairwise (· ≤ ·) (warmUpCursorNumbers exWarmupEvents) := by
  refine ⟨by decide, by decide, ?_⟩
  have h : warmUpCursorNumbers exWarmupEvents = [10, 9] := by decide
  rw [h]
  decide

/-- C3 counterexample: a block whose `addContract` action fails makes
`processBlock` raise its accumulated error, yet `processBlockAndPersist`
catches it and resolves with the persisted cursor: no block-level error
reaches its caller, contrary to the claim. -/
theorem processBlockAndPersist_swallows_error :
    (processBlock 1 exBlock5 [exErrEvent] oracleTrue oracleFalse true).hasErrors = true
    ∧ (processBlockAndPersist 1 exPersistEmpty exBlock5 [exErrEvent]
        oracleTrue oracleFalse true).2
      = BlockOutcome.resolved (blockToRegistryBlock exBlock5)
    ∧ (processBlockAndPersist 1 exPersistEmpty exBlock5 [exErrEvent]
        oracleTrue oracleFalse true).1.lastProcessedBlock
      = some (blockToRegistryBlock exBlock5) := by
  refine ⟨by decide, by decide, by decide⟩

/-- C3 amended: for every block, erroring or not, the cursor is
persisted unconditionally (set to `blockToRegistryBlock block` and
written), and `processBlockAndPersist` resolves with the persisted
cursor — the block-level error raised inside `processBlock` is caught
and logged, never propagated to the caller. -/
theorem processBlockAndPersist_always_persists (n : Nat) (st : PersistState)
    (block : Block) (events : List Event) (receiptExists : Event → Bool)
    (addContractOk : Event → Bool) (checkForAndPlaceOrderOk : Bool) :
    (processBlockAndPersist n st block events receiptExists addContractOk
        checkForAndPlaceOrderOk).1
      = { lastProcessedBlock := some (blockToRegistryBlock block)
          writes := st.writes ++ [blockToRegistryBlock block] }
    ∧ (processBlockAndPersist n st block events receiptExists addContractOk
        checkForAndPlaceOrderOk).2
      = BlockOutcome.resolved (blockToRegistryBlock block) :=
  ⟨rfl, rfl⟩

/-- C6: `checkForAndPlaceOrder` runs on a processed block exactly when
`block.number % processEveryNumBlocks == 0`; with the setting 3 that is
exactly divisibility by 3; event ingestion counts and cursor
persistence are independent of that condition. -/
theorem processBlock_poller_schedule (n : Nat) (block : Block) (events : List Event)
    (receiptExists : Event → Bool) (addContractOk : Event → Bool)
    (checkForAndPlaceOrderOk : Bool) (st : PersistState) (_hn : 0 < n) :
    ((processBlock n block events receiptExists addContractOk
        checkForAndPlaceOrderOk).ranPoller = true ↔ block.number % n = 0)
    ∧ ((processBlock 3 block events receiptExists addContractOk
        checkForAndPlaceOrderOk).ranPoller = true ↔ 3 ∣ block.number)
    ∧ (processBlock n block events receiptExists addContractOk
        checkForAndPlaceOrderOk).eventsProcessed = (events.filter receiptExists).length
    ∧ (processBlockAndPersist n st block events receiptExists addContractOk
        checkForAndPlaceOrderOk).1.lastProcessedBlock
      = some (blockToRegistryBlock block) := by
  refine ⟨?_, ?_, rfl, rfl⟩
  · simp [processBlock]
  · simp [processBlock, Nat.dvd_iff_mod_eq_zero]

/-- C6 witness: block 6 with the setting 3 runs the poller, and all
parts of the schedule theorem instantiate at it. -/
theorem processBlock_poller_schedule_witness :
    (processBlock 3 exBlock6 [] oracleTrue oracleTrue true).ranPoller = true
    ∧ (processBlockAndPersist 3 exPersistEmpty exBlock6 [] oracleTrue
        oracleTrue true).1.lastProcessedBlock = some (blockToRegistryBlock exBlock6) := by
  have h := processBlock_poller_schedule 3 exBlock6 [] oracleTrue oracleTrue true
    exPersistEmpty (by decide)
  exact ⟨h.2.1.mpr (by decide), h.2.2.2⟩

/-- C9 counterexample: the reload guard divisor
`FILTER_FREQUENCY_SECS / blocksPerFilterFrequency` equals 12 on
non-Gnosis chains (5 on Gnosis), not 1: at block 1 the modulus is 1 and
the guard is false, so the policy is not reloaded on every block and the
expression is not algebraically zero. -/
theorem filter_reload_not_every_block :
    FILTER_FREQUENCY_SECS / blocksPerFilterFrequency false = 12
    ∧ filterPolicyReloadDue 1 false = false
    ∧ 1 % (FILTER_FREQUENCY_SECS / blocksPerFilterFrequency false) = 1 := by
  refine ⟨by decide, by decide, by decide⟩

/-- C4: after `flush(owner, root)`, the orders of that owner are exactly
those the deletion condition spares — no remaining order has a non-null
proof whose merkle root differs from `root`; null-proof and
matching-root orders stay, and every other owner is untouched. -/
theorem flush_removes_stale_merkle_orders (registry : OwnerOrders)
    (owner root : String) :
    ordersOf (flush owner root registry) owner
        = (ordersOf registry owner).filter
            (fun conditionalOrder => !(flushDeletes root conditionalOrder))
    ∧ (∀ other, other ≠ owner →
        alGet (flush owner root registry) other = alGet registry other)
    ∧ (∀ co ∈ ordersOf (flush owner root registry) owner,
        ∀ p, co.proof = some p → p.merkleRoot = root) := by
  have hmain : ordersOf (flush owner root registry) owner
      = (ordersOf registry owner).filter
          (fun conditionalOrder => !(flushDeletes root conditionalOrder)) := by
    cases h : alGet registry owner with
    | none => simp [flush, h, ordersOf]
    | some l => simp [flush, h, ordersOf, alGet_alSet]
  refine ⟨hmain, ?_, ?_⟩
  · intro other hne
    cases h : alGet registry owner with
    | none => simp [flush, h]
    | some l =>
      have hne2 : ¬ owner = other := fun e => hne e.symm
      simp [flush, h, alGet_alSet, hne2]
  · intro co hco p hp
    rw [hmain] at hco
    have := List.of_mem_filter hco
    simp only [flushDeletes, hp, Bool.not_eq_true'] at this
    simpa using this

/-- C4 witness: flushing owner 0xa to root r2 keeps exactly the single
order and the r2 merkle order, leaves owner 0xb untouched, and the
remaining merkle order of 0xa carries root r2. -/
theorem flush_removes_stale_merkle_orders_witness :
    ordersOf (flush "0xa" "0xr2" exFlushReg) "0xa"
        = (ordersOf exFlushReg "0xa").filter
            (fun conditionalOrder => !(flushDeletes "0xr2" conditionalOrder))
    ∧ alGet (flush "0xa" "0xr2" exFlushReg) "0xb" = alGet exFlushReg "0xb"
    ∧ (Proof.mk "0xr2" ["0xp"]).merkleRoot = "0xr2" := by
  have h := flush_removes_stale_merkle_orders exFlushReg "0xa" "0xr2"
  refine ⟨h.1, h.2.1 "0xb" (by decide), ?_⟩
  have hmem : exCoR2 ∈ ordersOf (flush "0xa" "0xr2" exFlushReg) "0xa" := by
    rw [h.1]
    decide
  exact h.2.2 exCoR2 hmem ⟨"0xr2", ["0xp"]⟩ (by decide)

/-- C7: the live-tail handler records a reorg (counter incremented)
exactly when the incoming block number is at most the last received
number and the hash differs; when recorded, the depth gauge is set to
`lastBlockReceived.number - block.number + 1`; the block is processed
and its cursor persisted in either case. -/
theorem runBlockWatcher_reorg_detection (n : Nat) (st : WatcherState)
    (block : Block) (events : List Event) (receiptExists : Event → Bool)
    (addContractOk : Event → Bool) (checkForAndPlaceOrderOk : Bool) :
    ((runBlockWatcherOnBlock n st block events receiptExists addContractOk
        checkForAndPlaceOrderOk).reorgsTotal = st.reorgsTotal + 1
      ↔ (block.number ≤ st.lastBlockReceived.number
          ∧ block.hash ≠ st.lastBlockReceived.hash))
    ∧ ((block.number ≤ st.lastBlockReceived.number
          ∧ block.hash ≠ st.lastBlockReceived.hash) →
        (runBlockWatcherOnBlock n st block events receiptExists addContractOk
          checkForAndPlaceOrderOk).reorgDepthGauge
          = st.lastBlockReceived.number - block.number + 1)
    ∧ (runBlockWatcherOnBlock n st block events receiptExists addContractOk
        checkForAndPlaceOrderOk).persist.lastProcessedBlock
      = some (blockToRegistryBlock block) := by
  have hpersist : (runBlockWatcherOnBlock n st block events receiptExists
      addContractOk checkForAndPlaceOrderOk).persist.lastProcessedBlock
      = some (blockToRegistryBlock block) := by
    simp [runBlockWatcherOnBlock, processBlockAndPersist,
      persistLastProcessedBlock]
  by_cases h : block.number ≤ st.lastBlockReceived.number
      ∧ block.hash ≠ st.lastBlockReceived.hash
  · have hb : (decide (block.number ≤ st.lastBlockReceived.number)
        && (block.hash != st.lastBlockReceived.hash)) = true := by
      simp [h.1, h.2]
    have h1 : (runBlockWatcherOnBlock n st block events receiptExists
        addContractOk checkForAndPlaceOrderOk).reorgsTotal = st.reorgsTotal + 1 := by
      simp [runBlockWatcherOnBlock, hb]
    have h2 : (runBlockWatcherOnBlock n st block events receiptExists
        addContractOk checkForAndPlaceOrderOk).reorgDepthGauge
        = st.lastBlockReceived.number - block.number + 1 := by
      simp [runBlockWatcherOnBlock, hb]
    exact ⟨⟨fun _ => h, fun _ => h1⟩, fun _ => h2, hpersist⟩
  · have hb : (decide (block.number ≤ st.lastBlockReceived.number)
        && (block.hash != st.lastBlockReceived.hash)) = false := by
      cases hcb : (decide (block.number ≤ st.lastBlockReceived.number)
          && (block.hash != st.lastBlockReceived.hash)) with
      | false => rfl
      | true =>
        exact absurd (by simpa using hcb) h
    have h1 : (runBlockWatcherOnBlock n st block events receiptExists
        addContractOk checkForAndPlaceOrderOk).reorgsTotal = st.reorgsTotal := by
      simp [runBlockWatcherOnBlock, hb]
    refine ⟨?_, fun hc => absurd hc h, hpersist⟩
    rw [h1]
    constructor
    · intro he
      exact absurd he (by omega)
    · intro hc
      exact absurd hc h

/-- C7 witness: a replacement block 200 with hash h2 after block 200
with hash h1 increments the reorg counter, sets the depth gauge to 1,
and is still processed. -/
theorem runBlockWatcher_reorg_detection_witness :
    (runBlockWatcherOnBlock 1 exWatcherState exReorgBlock [] oracleTrue
        oracleTrue true).reorgsTotal = exWatcherState.reorgsTotal + 1
    ∧ (runBlockWatcherOnBlock 1 exWatcherState exReorgBlock [] oracleTrue
        oracleTrue true).reorgDepthGauge = 1
    ∧ (runBlockWatcherOnBlock 1 exWatcherState exReorgBlock [] oracleTrue
        oracleTrue true).persist.lastProcessedBlock
      = some (blockToRegistryBlock exReorgBlock) := by
  have h := runBlockWatcher_reorg_detection 1 exWatcherState exReorgBlock []
    oracleTrue oracleTrue true
  refine ⟨h.1.mpr ⟨by decide, by decide⟩, ?_, h.2.2⟩
  have := h.2.1 ⟨by decide, by decide⟩
  simpa [exWatcherState, exReorgBlock] using this

/-- Folding the health conjunction from any accumulator. -/
theorem overallHealth_foldl (chains : List ChainEntry) (acc : Bool) :
    chains.foldl (fun acc chain => acc && chainIsHealthy chain) acc
      = (acc && chains.all chainIsHealthy) := by
  induction chains generalizing acc with
  | nil => simp
  | cons hd tl ih => simp [ih, Bool.and_assoc]

/-- C10: the static health aggregator starts its reduce from
`overallHealth: true`, so with no registered chains the overall health
is vacuously true; for any chain set it is true exactly when every
chain is `IN_SYNC`. -/
theorem health_aggregation (chains : List ChainEntry) :
    overallHealth [] = true
    ∧ (overallHealth chains = true ↔ ∀ c ∈ chains, c.sync = ChainSync.IN_SYNC) := by
  refine ⟨rfl, ?_⟩
  unfold overallHealth
  rw [overallHealth_foldl]
  simp [List.all_eq_true, chainIsHealthy]

/-- C10 witness: the empty chain map reports healthy, and a singleton
in-sync chain map reports healthy. -/
theorem health_aggregation_witness :
    overallHealth [] = true ∧ overallHealth [exChainIn] = true :=
  ⟨(health_aggregation []).1,
   (health_aggregation [exChainIn]).2.mpr (by decide)⟩

/-- C9 amended: the guard simplifies to `n % 5 == 0` on Gnosis and
`n % 12 == 0` elsewhere — the divisor collapses to the assumed
block-time constant, so the filter policy is reloaded every 5th or 12th
block (roughly every 25 or 144 seconds), more often than the intended
hourly refresh but not on every block. -/
theorem filter_reload_period (n : Nat) :
    (filterPolicyReloadDue n true = true ↔ n % 5 = 0)
    ∧ (filterPolicyReloadDue n false = true ↔ n % 12 = 0)
    ∧ FILTER_FREQUENCY_SECS / blocksPerFilterFrequency true = 5
    ∧ FILTER_FREQUENCY_SECS / blocksPerFilterFrequency false = 12 := by
  refine ⟨?_, ?_, by decide, by decide⟩
  · simp [filterPolicyReloadDue, blocksPerFilterFrequency, FILTER_FREQUENCY_SECS]
  · simp [filterPolicyReloadDue, blocksPerFilterFrequency, FILTER_FREQUENCY_SECS]

end WatchTower

namespace WatchTower

namespace Model

/-- Element-wise parsing inverts element-wise serialisation. -/
theorem parseList_map {α β : Type} (f : α → β) (g : β → Option α)
    (h : ∀ a, g (f a) = some a) (xs : List α) :
    parseList g (xs.map f) = some xs := by
  induction xs with
  | nil => rfl
  | cons x xs ih => simp [parseList, h, ih]

/-- Reading back a tagged `Map` recovers its entries. -/
theorem parseMapEntries_tagMap (es : List (JValue × JValue)) :
    parseMapEntries (tagMap es) = some es := by
  show parseList parsePairArr (es.map (fun e => JValue.jarr [e.1, e.2])) = some es
  exact parseList_map (fun (e : JValue × JValue) => JValue.jarr [e.1, e.2])
    parsePairArr (fun e => by cases e; rfl) es

/-- Reading back a tagged `Set` recovers its elements. -/
theorem parseSetElems_tagSet (xs : List JValue) :
    parseSetElems (tagSet xs) = some xs := rfl

/-- Status enum round-trip. -/
theorem parseStatus_statusToJS (s : OrderStatus) :
    parseStatus (statusToJS s) = some s := by
  cases s <;> rfl

/-- Discrete-orders map round-trip. -/
theorem parseOrdersMap_roundtrip (m : List (String × OrderStatus)) :
    parseOrdersMap (ordersMapToJS m) = some m := by
  unfold parseOrdersMap ordersMapToJS
  rw [parseMapEntries_tagMap]
  exact parseList_map _ _ (fun e => by simp [parseString, parseStatus_statusToJS]) m

/-- Params triple round-trip. -/
theorem parseParams_roundtrip (p : Params) :
    parseParams (paramsToJS p) = some p := rfl

/-- Optional proof round-trip. -/
theorem parseProofOpt_roundtrip (pr : Option Proof) :
    parseProofOpt (proofToJS pr) = some pr := by
  cases pr with
  | none => rfl
  | some p =>
    simp [proofToJS, parseProofOpt,
      parseList_map JValue.jstr parseString (fun s => rfl)]

/-- Conditional order round-trip. -/
theorem parseOrder_roundtrip (o : ConditionalOrderV) :
    parseOrder (orderToJS o) = some o := by
  simp [orderToJS, parseOrder, parseParams_roundtrip, parseProofOpt_roundtrip,
    parseOrdersMap_roundtrip]

/-- Owner map round-trip: the typed reviver inverts `stringifyOrders`. -/
theorem parseOwnerOrders_roundtrip (m : OwnerOrdersV) :
    parseOwnerOrders (ownerOrdersToJS m) = some m := by
  unfold parseOwnerOrders ownerOrdersToJS
  rw [parseMapEntries_tagMap]
  refine parseList_map _ _ (fun p => ?_) m
  simp [parseString, parseSetElems_tagSet,
    parseList_map orderToJS parseOrder parseOrder_roundtrip]

/-- A missing serialised registry parses to the empty map whatever the
version argument is. -/
theorem parseConditionalOrders_none (v : Option Int) :
    parseConditionalOrders none v = some [] := rfl

/-- A present serialised registry is parsed by the reviver, ignoring
the version argument. -/
theorem parseConditionalOrders_some (j : JValue) (v : Option Int) :
    parseConditionalOrders (some j) v = parseOwnerOrders j := rfl

/-- C5: writing a registry and loading it back under the same network
yields the registry unchanged, for any prior store contents, any
genesis block, empty or non-empty owner maps and sets, and null or
non-null cursor and error timestamp. The validity hypothesis is that
the in-memory version is the schema constant, which every registry the
source constructs carries. -/
theorem registry_write_load_roundtrip (r : Registry) (s : Store) (g : Int)
    (hv : r.version = CONDITIONAL_ORDER_REGISTRY_VERSION) :
    registryLoad (registryWrite r s) r.network g = some r := by
  obtain ⟨ver, oo, net, lne, lpb⟩ := r
  replace hv : ver = CONDITIONAL_ORDER_REGISTRY_VERSION := hv
  subst hv
  cases lne <;> cases lpb <;>
    simp [registryWrite, registryLoad, loadSerializedOrders,
      loadLastNotifiedError, loadLastProcessedBlock, loadVersion,
      alGet_alSet, alGet_alDel, getNetworkStorageKey,
      parseConditionalOrders_some, parseOwnerOrders_roundtrip]

/-- C5 witness: a concrete registry with one owner, one merkle order
holding one submitted discrete order, a notified-error timestamp and a
cursor, written into the empty store, loads back unchanged. -/
theorem registry_write_load_roundtrip_witness :
    registryLoad (registryWrite exRegV []) "100" 0 = some exRegV :=
  registry_write_load_roundtrip exRegV [] 0 rfl

/-- C8 counterexample: a store holding serialised owner orders but no
version key. The claim says a missing version key is treated as an
empty registry; `load` instead parses and keeps the stored data (and
reports the fixed current version). -/
theorem load_missing_version_keeps_data :
    alGet exNoVersionStore
        (getNetworkStorageKey StorageKeyName.CONDITIONAL_ORDER_REGISTRY_VERSION "100")
      = none
    ∧ (registryLoad exNoVersionStore "100" 0).map (fun r => r.ownerOrders)
      = some exOwnerOrdersV
    ∧ exOwnerOrdersV ≠ [] := by
  refine ⟨rfl, ?_, by decide⟩
  show (registryLoad exNoVersionStore "100" 0).map (fun r => r.ownerOrders)
      = some exOwnerOrdersV
  simp [exNoVersionStore, registryLoad, alGet, getNetworkStorageKey,
    loadSerializedOrders, parseConditionalOrders_some,
    parseOwnerOrders_roundtrip]

/-- C8 amended: `load` never migrates and never discards on a version
mismatch — the persisted version is read but ignored, so loading with
the version key set to any value gives the same result as loading with
the key absent; and every successfully loaded registry carries the
fixed current schema version (the class-field initialiser), regardless
of what was stored. -/
theorem load_ignores_version (s : Store) (net : String) (g v : Int) :
    registryLoad
        (alSet s (getNetworkStorageKey StorageKeyName.CONDITIONAL_ORDER_REGISTRY_VERSION net)
          (DBVal.int v)) net g
      = registryLoad
        (alDel s (getNetworkStorageKey StorageKeyName.CONDITIONAL_ORDER_REGISTRY_VERSION net)) net g
    ∧ (∀ r, registryLoad s net g = some r
        → r.version = CONDITIONAL_ORDER_REGISTRY_VERSION) := by
  constructor
  · have hR : alGet
        (alSet s (getNetworkStorageKey StorageKeyName.CONDITIONAL_ORDER_REGISTRY_VERSION net)
          (DBVal.int v))
        (getNetworkStorageKey StorageKeyName.CONDITIONAL_ORDER_REGISTRY net)
        = alGet
          (alDel s (getNetworkStorageKey StorageKeyName.CONDITIONAL_ORDER_REGISTRY_VERSION net))
          (getNetworkStorageKey StorageKeyName.CONDITIONAL_ORDER_REGISTRY net) := by
      simp [alGet_alSet, alGet_alDel, getNetworkStorageKey]
    have hE : loadLastNotifiedError
        (alSet s (getNetworkStorageKey StorageKeyName.CONDITIONAL_ORDER_REGISTRY_VERSION net)
          (DBVal.int v)) net
        = loadLastNotifiedError
          (alDel s (getNetworkStorageKey StorageKeyName.CONDITIONAL_ORDER_REGISTRY_VERSION net)) net := by
      simp [loadLastNotifiedError, alGet_alSet, alGet_alDel, getNetworkStorageKey]
    have hB : loadLastProcessedBlock
        (alSet s (getNetworkStorageKey StorageKeyName.CONDITIONAL_ORDER_REGISTRY_VERSION net)
          (DBVal.int v)) net g
        = loadLastProcessedBlock
          (alDel s (getNetworkStorageKey StorageKeyName.CONDITIONAL_ORDER_REGISTRY_VERSION net)) net g := by
      simp [loadLastProcessedBlock, alGet_alSet, alGet_alDel, getNetworkStorageKey]
    unfold registryLoad
    rw [hR]
    cases alGet
        (alDel s (getNetworkStorageKey StorageKeyName.CONDITIONAL_ORDER_REGISTRY_VERSION net))
        (getNetworkStorageKey StorageKeyName.CONDITIONAL_ORDER_REGISTRY net) with
    | none => rfl
    | some strVal =>
      cases strVal with
      | txt str =>
        by_cases hstr : str.isEmpty <;>
          simp [loadSerializedOrders, hstr, parseConditionalOrders_none, hE, hB]
      | int i => rfl
      | date d => rfl
      | json j =>
        simp [loadSerializedOrders, parseConditionalOrders_some, hE, hB]
  · intro r h
    unfold registryLoad at h
    split at h
    · simp at h
    · split at h
      · simp at h
      · split at h
        · simp at h
        · injection h with h2
          rw [← h2]

/-- C8 witness: over the version-less store with data, setting the
version key to 7 and deleting it load identically, and the concretely
loaded registry carries the current schema version. -/
theorem load_ignores_version_witness :
    registryLoad
        (alSet exNoVersionStore
          (getNetworkStorageKey StorageKeyName.CONDITIONAL_ORDER_REGISTRY_VERSION "100")
          (DBVal.int 7)) "100" 0
      = registryLoad
        (alDel exNoVersionStore
          (getNetworkStorageKey StorageKeyName.CONDITIONAL_ORDER_REGISTRY_VERSION "100")) "100" 0
    ∧ Registry.version
        { version := CONDITIONAL_ORDER_REGISTRY_VERSION
          ownerOrders := exOwnerOrdersV
          network := "100"
          lastNotifiedError := none
          lastProcessedBlock := none }
      = CONDITIONAL_ORDER_REGISTRY_VERSION := by
  have h := load_ignores_version exNoVersionStore "100" 0 7
  refine ⟨h.1, h.2 _ ?_⟩
  simp [exNoVersionStore, registryLoad, alGet, getNetworkStorageKey,
    loadSerializedOrders, parseConditionalOrders_some, parseOwnerOrders_roundtrip,
    loadLastNotifiedError, loadLastProcessedBlock]

end Model

end WatchTower
